import Mathlib

/-!
Shallow embedding of `src/graph-slice.ts`: the graph slice of a
redux-toolkit / redux-observable state layer for a process-graph view.

The slice's reducers become a pure `graphReducer`; each epic
(rxjs pipeline) becomes an explicit Lean model of the observable
combinators it uses:

* `switchMap` over a stream of triggers becomes a small machine that
  keeps the id of the currently subscribed inner request and discards
  responses of unsubscribed (superseded) requests (`draftStep`);
* `debounceTime(1000)` over a timed trace becomes the predicate
  `noLater`: a trigger fires iff no further trigger arrives strictly
  within the next 1000ms, and the fire happens 1000ms after the trigger;
* `withLatestFrom(state$)` becomes `stateAt`, the fold of the reducer
  over all actions dispatched up to the sampling instant;
* `forkJoin` becomes `forkJoinModel`: with zero sources it completes
  without emitting (RxJS 6 behaviour), with any erroring source it
  errors, otherwise it emits the result selector's value once;
* a missing `catchError` means the error escapes the epic: modelled by
  the `EpicOut.failed` outcome.

Types imported by the slice from `models/graph`, `api/graph-api`,
`app/config` and the auth slice are not part of the repository snapshot
and are modelled from the spec, as marked on each definition.
-/

/-- Value stored in a filter mapping or a parameter: a TS number, a TS
boolean, or the JS `undefined` produced by indexing an absent key. -/
inductive FilterValue where
  | num (q : ℚ)
  | bool (b : Bool)
  | undef
  deriving DecidableEq

/-- Modelled from the spec: `DfgRequest` / `FuzzyRequest` are flat mappings
from parameter key to numeric or boolean value (plain JS objects, built by
literals or by `Object.fromEntries`). An object is embedded as its entry
list; lookup takes the last entry with the key, matching
`Object.fromEntries`, where later entries overwrite earlier ones. -/
def Filters : Type := List (String × FilterValue)

instance : DecidableEq Filters :=
  inferInstanceAs (DecidableEq (List (String × FilterValue)))

/-- JS property access `obj[key]` on an embedded object: the value of the
last entry carrying the key, or `undefined` when no entry does. -/
def objGet (f : Filters) (k : String) : FilterValue :=
  match (f.filter (fun e => e.1 == k)).getLast? with
  | some e => e.2
  | none => FilterValue.undef

/-- Modelled from the spec: server-identified working copy of a view
configuration; the orchestration layer only ever reads its `id`. -/
structure ViewDraft where
  id : String
  deriving DecidableEq

/-- Modelled from the spec: whole-graph metrics payload, opaque here. -/
structure GraphMetrics where
  raw : String
  deriving DecidableEq

/-- Modelled from the spec: computed visualization payload, opaque except
for the embedded `metrics` sub-object that the slice extracts. -/
structure Graph where
  payload : String
  metrics : GraphMetrics
  deriving DecidableEq

/-- Modelled from the spec: per-node/edge metrics payload, opaque here. -/
structure GraphNodeEdgeMetrics where
  raw : String
  deriving DecidableEq

/-- Modelled from the spec: node/edge highlight selector, opaque here. -/
structure NodeEdgeId where
  raw : String
  deriving DecidableEq

/-- Modelled from the spec: the selected value-mode for display (a TS
string enum, opaque to the orchestration layer). -/
structure GraphValues where
  raw : String
  deriving DecidableEq

/-- The `GraphValues.CaseCount` enum member used by the initial state. -/
def GraphValues.CaseCount : GraphValues := ⟨"CaseCount"⟩

/-- Modelled from the spec: the two algorithm variants of the selector. -/
inductive AlgorithmTypes where
  | Dfg
  | Fuzzy
  deriving DecidableEq

/-- Modelled from the spec: a user-adjustable parameter descriptor —
identifier, owning algorithm (`method`, a string the save workflow
compares against `"fuzzy"`), key, and current value. -/
structure GraphParameters where
  id : String
  method : String
  key : String
  value : FilterValue
  deriving DecidableEq

/-- Edge width bounds kept in state (`EdgeWidth` in the source). -/
structure EdgeWidth where
  minWidth : Nat
  maxWidth : Nat
  deriving DecidableEq

/-- Modelled from the spec: minimum edge width from `app/config`; the
exact number is immaterial to every claim. -/
def GRAPH_EDGE_MIN_WIDTH : Nat := 1

/-- Modelled from the spec: maximum edge width from `app/config`; the
exact number is immaterial to every claim. -/
def GRAPH_EDGE_MAX_WIDTH : Nat := 10

/-- The `GraphState` slice, field for field as in the source. `graph` is
an `Option` because `handleError` stores a literal `null` there; the
initial `{} as Graph` placeholder is embedded as `none` as well (nothing
in the slice reads it). -/
structure GraphState where
  isLoading : Bool
  error : String
  viewId : String
  draft : ViewDraft
  graph : Option Graph
  dfgFilters : Filters
  fuzzyFilters : Filters
  userParams : List GraphParameters
  algorithmType : AlgorithmTypes
  graphMetrics : GraphMetrics
  nodeEdgeMetrics : GraphNodeEdgeMetrics
  isSidebar : Bool
  graphSidebarTabIndex : Nat
  width : EdgeWidth
  graphValue : GraphValues
  onPercent : Bool
  nodeEdgeHighlighting : NodeEdgeId
  deriving DecidableEq

/-- The `dfgFilters` literal of `initialState` in the source. -/
def dfgFilterDefaults : Filters :=
  [("activity-frequency", FilterValue.num 1),
   ("variant-frequency", FilterValue.num 1)]

/-- The `fuzzyFilters` literal of `initialState` in the source. -/
def fuzzyFilterDefaults : Filters :=
  [("concurrency", FilterValue.bool false),
   ("concurrency-offset", FilterValue.num 1),
   ("concurrency-preserve", FilterValue.num 1),
   ("edge-ignore-self-loops", FilterValue.bool false),
   ("edge-interpret-abs", FilterValue.bool false),
   ("edge-preserve", FilterValue.num 1),
   ("edge-sc-ratio", FilterValue.num 1),
   ("node-cut-off", FilterValue.num (1 / 1000))]

/-- `initialState` of the slice, as in the source; `{} as T` placeholders
become the empty-string payloads / `none`. -/
def initialState : GraphState where
  isLoading := false
  error := ""
  viewId := ""
  draft := ⟨""⟩
  graph := none
  dfgFilters := dfgFilterDefaults
  fuzzyFilters := fuzzyFilterDefaults
  userParams := []
  algorithmType := AlgorithmTypes.Dfg
  graphMetrics := ⟨""⟩
  nodeEdgeMetrics := ⟨""⟩
  isSidebar := false
  graphSidebarTabIndex := 0
  width := ⟨GRAPH_EDGE_MIN_WIDTH, GRAPH_EDGE_MAX_WIDTH⟩
  graphValue := GraphValues.CaseCount
  onPercent := false
  nodeEdgeHighlighting := ⟨""⟩

/-- The closed event vocabulary: one constructor per reducer of the slice,
plus `authLogout`, the foreign action of the auth slice that
`handleError` emits on a 401 (modelled from the spec's session-expired
signal). -/
inductive GraphAction where
  | getFailed (message : String)
  | createDraft (viewId : String)
  | setDraft (draft : ViewDraft)
  | saveDraft
  | saveDraftComplete
  | setAlgorithmType (t : AlgorithmTypes)
  | setDfgFilters (f : Filters)
  | setFuzzyFilters (f : Filters)
  | getGraph
  | setGraph (g : Option Graph)
  | setUserParams (ps : List GraphParameters)
  | setGraphMetrics (m : GraphMetrics)
  | setNodeEdgeMetrics (m : GraphNodeEdgeMetrics)
  | setNodeEdgeHighlighting (i : NodeEdgeId)
  | resetNodeEdgeMetrics
  | toggleSidebar
  | toggleMetrics (tab : Nat)
  | changeEdgeWidth (w : EdgeWidth)
  | changeGraphValue (v : GraphValues)
  | toggleOnPercent (b : Bool)
  | resetDraft
  | resetGraph
  | resetGraphFilters
  | resetGraphMetrics
  | resetNodeEdgeHighlighting
  | resetGraphCommonParams
  | authLogout
  deriving DecidableEq

/-- The slice reducer: each case is the corresponding reducer of
`graphSlice.reducers`, a direct field-assignment translation. The foreign
`authLogout` action is not handled by this slice, so it leaves the slice
state unchanged (redux `combineReducers` semantics). -/
def graphReducer (s : GraphState) (a : GraphAction) : GraphState :=
  match a with
  | GraphAction.getFailed message => { s with isLoading := false, error := message }
  | GraphAction.createDraft viewId => { s with isLoading := true, viewId := viewId, error := "" }
  | GraphAction.setDraft draft => { s with isLoading := false, draft := draft }
  | GraphAction.saveDraft => { s with isLoading := true, error := "" }
  | GraphAction.saveDraftComplete => { s with isLoading := true, error := "" }
  | GraphAction.setAlgorithmType t => { s with algorithmType := t }
  | GraphAction.setDfgFilters f => { s with dfgFilters := f }
  | GraphAction.setFuzzyFilters f => { s with fuzzyFilters := f }
  | GraphAction.getGraph => { s with isLoading := true, error := "" }
  | GraphAction.setGraph g => { s with isLoading := false, graph := g }
  | GraphAction.setUserParams ps => { s with userParams := ps }
  | GraphAction.setGraphMetrics m => { s with graphMetrics := m }
  | GraphAction.setNodeEdgeMetrics m => { s with nodeEdgeMetrics := m }
  | GraphAction.setNodeEdgeHighlighting i => { s with nodeEdgeHighlighting := i }
  | GraphAction.resetNodeEdgeMetrics =>
      { s with nodeEdgeMetrics := initialState.nodeEdgeMetrics,
               isSidebar := if s.isSidebar then false else s.isSidebar,
               graphSidebarTabIndex := 0 }
  | GraphAction.toggleSidebar => { s with isSidebar := !s.isSidebar }
  | GraphAction.toggleMetrics tab =>
      { s with graphSidebarTabIndex := tab,
               isSidebar := if !s.isSidebar then true else s.isSidebar }
  | GraphAction.changeEdgeWidth w => { s with isLoading := false, width := w }
  | GraphAction.changeGraphValue v => { s with isLoading := false, graphValue := v }
  | GraphAction.toggleOnPercent b => { s with isLoading := false, onPercent := b }
  | GraphAction.resetDraft => { s with draft := initialState.draft }
  | GraphAction.resetGraph => { s with graph := initialState.graph }
  | GraphAction.resetGraphFilters => { s with dfgFilters := initialState.dfgFilters }
  | GraphAction.resetGraphMetrics => { s with graphMetrics := initialState.graphMetrics }
  | GraphAction.resetNodeEdgeHighlighting =>
      { s with nodeEdgeHighlighting := initialState.nodeEdgeHighlighting }
  | GraphAction.resetGraphCommonParams =>
      { s with isSidebar := initialState.isSidebar,
               width := initialState.width,
               graphValue := initialState.graphValue,
               algorithmType := initialState.algorithmType }
  | GraphAction.authLogout => s

/-- Modelled from the spec: a status-carrying remote-call failure
(`AjaxError`). `msg` embeds the string `error.toString()` renders to. -/
structure AjaxErr where
  status : Nat
  msg : String
  deriving DecidableEq

/-- The shared error translator `handleError`: 401 becomes the foreign
`authLogout` action, 500 or 404 become `setGraph(null)`, anything else
becomes `getFailed(error.toString())`. `of(x)` emits exactly one action. -/
def handleError (e : AjaxErr) : List GraphAction :=
  if e.status = 401 then [GraphAction.authLogout]
  else if e.status = 500 ∨ e.status = 404 then [GraphAction.setGraph none]
  else [GraphAction.getFailed e.msg]

/-- External happenings seen by `draftEpic`: a `createDraft` trigger, or
the arrival of the outcome of the remote `postViewDraft` call that the
epic started for the request numbered `req` (requests are numbered in the
order the epic issues them). -/
inductive DraftEv where
  | trigger (viewId : String)
  | response (req : Nat) (out : Except AjaxErr ViewDraft)

/-- The subscription state of `draftEpic`'s `switchMap`: the number of
requests issued so far, and the id of the inner request currently
subscribed, if any. -/
structure DraftMach where
  nextReq : Nat
  active : Option Nat
  deriving DecidableEq

/-- What the inner observable of `draftEpic` emits when its remote call
settles: `map(data => setDraft(data))` on success, `catchError(handleError)`
on failure. -/
def draftResponseActions (out : Except AjaxErr ViewDraft) : List GraphAction :=
  match out with
  | Except.ok d => [GraphAction.setDraft d]
  | Except.error e => handleError e

/-- One step of `draftEpic` under `switchMap` semantics: a new trigger
unsubscribes any in-flight inner request and subscribes a fresh one; a
response reaches the epic's output only while its request is still the
subscribed one — a superseded (unsubscribed) response is discarded and
emits nothing. -/
def draftStep (m : DraftMach) (e : DraftEv) : DraftMach × List GraphAction :=
  match e with
  | DraftEv.trigger _ => (⟨m.nextReq + 1, some m.nextReq⟩, [])
  | DraftEv.response r out =>
      if m.active = some r then (⟨m.nextReq, none⟩, draftResponseActions out)
      else (m, [])

/-- Run the `draftEpic` machine over a list of happenings from `m`. -/
def runDraftFrom (m : DraftMach) (evs : List DraftEv) : DraftMach :=
  evs.foldl (fun m e => (draftStep m e).1) m

/-- Run the `draftEpic` machine from its initial state. -/
def runDraft (evs : List DraftEv) : DraftMach :=
  runDraftFrom ⟨0, none⟩ evs

/-- Number of `createDraft` triggers in a list of happenings. -/
def countTriggers (evs : List DraftEv) : Nat :=
  evs.countP (fun e => match e with | DraftEv.trigger _ => true | _ => false)

/-- The `newUserParams` computation of `saveDraftEpic`: each parameter's
value is replaced by the entry of the matching filter set under the
parameter's key — the fuzzy set when `method === 'fuzzy'`, the DFG set
otherwise. -/
def newUserParams (ps : List GraphParameters) (dfgF fuzzyF : Filters) :
    List GraphParameters :=
  ps.map (fun p =>
    { p with value := if p.method == "fuzzy" then objGet fuzzyF p.key
                      else objGet dfgF p.key })

/-- Outcome of one epic activation as seen on the epic's output stream:
either a finite list of emitted actions, or an error that escaped the
epic (no `catchError` on the path), which terminates the epic's stream. -/
inductive EpicOut where
  | events (acts : List GraphAction)
  | failed (e : AjaxErr)
  deriving DecidableEq

/-- First error among the settled sources, if any. -/
def firstErr (l : List (Except AjaxErr Unit)) : Option AjaxErr :=
  l.findSome? (fun r => match r with
    | Except.error e => some e
    | Except.ok _ => none)

/-- RxJS 6 `forkJoin(...sources, resultSelector)`: with zero sources the
result stream completes immediately WITHOUT emitting; if any source
errors, the join errors; otherwise it emits the selector's value once. -/
def forkJoinModel (sources : List (Except AjaxErr Unit)) (sel : GraphAction) :
    EpicOut :=
  if sources.isEmpty then EpicOut.events []
  else
    match firstErr sources with
    | some e => EpicOut.failed e
    | none => EpicOut.events [sel]

/-- The error `timeout(1000)` raises when a `patchDraftParameter` call
exceeds 1000ms (rxjs `TimeoutError`; it carries no HTTP status). -/
def timeoutErr : AjaxErr := ⟨0, "Timeout has occurred"⟩

/-- One activation of `saveDraftEpic` on state `s`: it issues one
`patchDraftParameter` call per merged parameter (the call for parameter
number `i` settles with `oracle i`, where a timeout or network failure is
an `Except.error`), and fan-ins with `forkJoin(..., () => saveDraftComplete())`.
The source epic has NO `catchError`, so any per-call error escapes as
`EpicOut.failed`. -/
def saveDraftFire (s : GraphState) (oracle : Nat → Except AjaxErr Unit) :
    EpicOut :=
  let ps := newUserParams s.userParams s.dfgFilters s.fuzzyFilters
  forkJoinModel ((List.range ps.length).map oracle) GraphAction.saveDraftComplete

/-- One activation of `saveDraftCompleteEpic`: `postDraft(state.graph.draft.id)`
settles with `out`; success maps to `resetDraft()`, failure routes through
`catchError(handleError)`. -/
def saveDraftCompleteFire (out : Except AjaxErr Unit) : List GraphAction :=
  match out with
  | Except.ok _ => [GraphAction.resetDraft]
  | Except.error e => handleError e

/-- `setDraftEpic`: on any `setDraft` action it emits, via `mergeMapTo`,
the fixed triple of follow-up actions. -/
def setDraftEpicOut (_d : ViewDraft) : List GraphAction :=
  [GraphAction.setDfgFilters initialState.dfgFilters,
   GraphAction.setFuzzyFilters initialState.fuzzyFilters,
   GraphAction.getGraph]

/-- `setAlgorithmTypeEpic`: `mapTo(getGraph())`. -/
def setAlgorithmTypeEpicOut (_t : AlgorithmTypes) : List GraphAction :=
  [GraphAction.getGraph]

/-- Modelled from the spec: the two remote graph-compute operations of the
gateway, `postDfg(draftId, dfgFilters)` and `postFuzzy(draftId, fuzzyFilters)`,
recorded as call descriptors. -/
inductive RemoteCall where
  | dfg (draftId : String) (filters : Filters)
  | fuzzy (draftId : String) (filters : Filters)
  deriving DecidableEq

/-- The remote call `graphEpic` issues from a state snapshot: `postDfg`
with the DFG filter set when the selector is `Dfg`, otherwise `postFuzzy`
with the fuzzy filter set, both on the current draft id. -/
def graphCall (s : GraphState) : RemoteCall :=
  match s.algorithmType with
  | AlgorithmTypes.Dfg => RemoteCall.dfg s.draft.id s.dfgFilters
  | AlgorithmTypes.Fuzzy => RemoteCall.fuzzy s.draft.id s.fuzzyFilters

/-- What `graphEpic`'s inner observable emits once the compute call
settles: `mergeMap(data => [setGraph(data), setGraphMetrics(data.metrics)])`
on success, `catchError(handleError)` on failure. -/
def graphFire (out : Except AjaxErr Graph) : List GraphAction :=
  match out with
  | Except.ok g => [GraphAction.setGraph (some g), GraphAction.setGraphMetrics g.metrics]
  | Except.error e => handleError e

/-- Whether an action passes `filter(getGraph.match)`. -/
def isGetGraph (a : GraphAction) : Bool :=
  match a with
  | GraphAction.getGraph => true
  | _ => false

/-- A timed trace of dispatched actions: `(t, a)` means action `a` was
dispatched at time `t` (milliseconds); the trace is listed in dispatch
order. -/
def ActionTrace : Type := List (Nat × GraphAction)

/-- The dispatch times of the `getGraph` triggers in a trace (the stream
`action$.pipe(filter(getGraph.match))` that `graphEpic` debounces). -/
def triggerTimes (tr : ActionTrace) : List Nat :=
  (tr.filter (fun e => isGetGraph e.2)).map Prod.fst

/-- `debounceTime(1000)` firing condition on the list `l` of trigger
times: the trigger at time `t` is delivered iff no further trigger
arrives strictly within the next 1000ms; delivery then happens at
`t + 1000`. -/
def noLater (l : List Nat) (t : Nat) : Bool :=
  l.all (fun u => !(decide (t < u) && decide (u < t + 1000)))

/-- The store state `withLatestFrom(state$)` samples at instant `T`: the
fold of the slice reducer over every action dispatched at time `≤ T`,
starting from `initialState`. -/
def stateAt (tr : ActionTrace) (T : Nat) : GraphState :=
  ((tr.filter (fun e => e.1 ≤ T)).map Prod.snd).foldl graphReducer initialState

/-- The remote graph-compute calls `graphEpic` issues on a timed trace:
one call per debounce-delivered trigger, parameterized by the state
sampled at the delivery instant, 1000ms after the trigger. -/
def debouncedCalls (tr : ActionTrace) : List RemoteCall :=
  (triggerTimes tr).filterMap (fun t =>
    if noLater (triggerTimes tr) t then some (graphCall (stateAt tr (t + 1000)))
    else none)

/-- The `mappedParams`/`objParams` projection of `graphParametersEpic`:
the parameter list flattened to `[key, value]` entries, which
`Object.fromEntries` turns into an object (embedded as the entry list
itself; `objGet` realizes the fromEntries last-wins collapse). -/
def projectParams (ps : List GraphParameters) : Filters :=
  ps.map (fun p => (p.key, p.value))

/-- The actions `graphParametersEpic` emits on `setUserParams`: both
filter sets are set to the same projected mapping, cast to each shape. -/
def graphParametersOut (ps : List GraphParameters) : List GraphAction :=
  [GraphAction.setDfgFilters (projectParams ps),
   GraphAction.setFuzzyFilters (projectParams ps)]

/-- The projection/merge round trip of claim C9: project the parameter
list into the filter mappings as `graphParametersEpic` does, install the
same mapping as both filter sets as the emitted `setDfgFilters` /
`setFuzzyFilters` actions do, then merge the filter sets back into the
parameters as `saveDraftEpic` does. -/
def roundTrip (ps : List GraphParameters) : List GraphParameters :=
  newUserParams ps (projectParams ps) (projectParams ps)

/-- Concrete state with the fuzzy algorithm selected (witness input). -/
def fuzzyStateExample : GraphState :=
  { initialState with algorithmType := AlgorithmTypes.Fuzzy, draft := ⟨"d1"⟩ }

/-- Concrete state with the DFG algorithm selected (witness input). -/
def dfgStateExample : GraphState :=
  { initialState with draft := ⟨"d2"⟩ }

/-- Concrete graph payload (witness input). -/
def graphExample : Graph := ⟨"g-payload", ⟨"g-metrics"⟩⟩

/-- Concrete state with exactly one user parameter (failing input of
claim C4). -/
def oneParamState : GraphState :=
  { initialState with
      userParams := [⟨"p1", "dfg", "activity-frequency", FilterValue.num 1⟩] }

/-- A DFG filter set different from the defaults (input of the C2
counterexample). -/
def dfgFiltersChanged : Filters :=
  [("activity-frequency", FilterValue.num 5),
   ("variant-frequency", FilterValue.num 1)]

/-- Counterexample trace for claim C2: a burst of two `getGraph` triggers
(0ms and 400ms apart by 400ms), then a filter change at 900ms — after the
last trigger but before the debounced delivery at 1400ms. -/
def c2Trace : ActionTrace :=
  [(0, GraphAction.getGraph),
   (400, GraphAction.getGraph),
   (900, GraphAction.setDfgFilters dfgFiltersChanged)]

/-- Witness trace for the amended claim C2: a plain two-trigger burst. -/
def c2WitnessTrace : ActionTrace :=
  [(0, GraphAction.getGraph), (400, GraphAction.getGraph)]

/-- Counterexample parameter list for claim C9: two parameters of
different owning algorithms sharing one key with different values. -/
def c9Params : List GraphParameters :=
  [⟨"1", "dfg", "shared-key", FilterValue.num 1⟩,
   ⟨"2", "fuzzy", "shared-key", FilterValue.num 2⟩]

/-- Witness parameter list for the amended claim C9: pairwise distinct
keys. -/
def c9WitnessParams : List GraphParameters :=
  [⟨"1", "dfg", "activity-frequency", FilterValue.num 3⟩,
   ⟨"2", "fuzzy", "edge-preserve", FilterValue.num 4⟩]

/-- Claim C10: `resetGraphFilters` restores only the DFG filter set to its
initial default value and leaves every other field of the graph state,
including the fuzzy filter set, unchanged. -/
theorem reset_graph_filters_frame (s : GraphState) :
    (graphReducer s GraphAction.resetGraphFilters).dfgFilters = dfgFilterDefaults ∧
    (graphReducer s GraphAction.resetGraphFilters).fuzzyFilters = s.fuzzyFilters ∧
    (graphReducer s GraphAction.resetGraphFilters).isLoading = s.isLoading ∧
    (graphReducer s GraphAction.resetGraphFilters).error = s.error ∧
    (graphReducer s GraphAction.resetGraphFilters).viewId = s.viewId ∧
    (graphReducer s GraphAction.resetGraphFilters).draft = s.draft ∧
    (graphReducer s GraphAction.resetGraphFilters).graph = s.graph ∧
    (graphReducer s GraphAction.resetGraphFilters).userParams = s.userParams ∧
    (graphReducer s GraphAction.resetGraphFilters).algorithmType = s.algorithmType ∧
    (graphReducer s GraphAction.resetGraphFilters).graphMetrics = s.graphMetrics ∧
    (graphReducer s GraphAction.resetGraphFilters).nodeEdgeMetrics = s.nodeEdgeMetrics ∧
    (graphReducer s GraphAction.resetGraphFilters).isSidebar = s.isSidebar ∧
    (graphReducer s GraphAction.resetGraphFilters).graphSidebarTabIndex = s.graphSidebarTabIndex ∧
    (graphReducer s GraphAction.resetGraphFilters).width = s.width ∧
    (graphReducer s GraphAction.resetGraphFilters).graphValue = s.graphValue ∧
    (graphReducer s GraphAction.resetGraphFilters).onPercent = s.onPercent ∧
    (graphReducer s GraphAction.resetGraphFilters).nodeEdgeHighlighting = s.nodeEdgeHighlighting :=
  ⟨rfl, rfl, rfl, rfl, rfl, rfl, rfl, rfl, rfl, rfl, rfl, rfl, rfl, rfl, rfl, rfl, rfl⟩

/-- Claim C8: on every `setDraft` event, regardless of the draft payload,
the post-draft-load workflow emits exactly the three follow-up events
`setDfgFilters` with the default DFG filter set, `setFuzzyFilters` with
the default fuzzy filter set, and `getGraph`. -/
theorem set_draft_emits_three_defaults (d : ViewDraft) :
    setDraftEpicOut d =
      [GraphAction.setDfgFilters dfgFilterDefaults,
       GraphAction.setFuzzyFilters fuzzyFilterDefaults,
       GraphAction.getGraph] :=
  rfl

/-- Claim C5: the shared error translator emits, for a 401, the
session-expired signal (`authLogout`) and no local error event, leaving
the slice state unchanged; for 404 or 500 it emits `setGraph` with a null
payload and no error message; and for any other failure a single
`getFailed` carrying the human-readable message, on which the reducer
clears the loading flag and stores the message. -/
theorem handle_error_taxonomy (e : AjaxErr) (s : GraphState) :
    (e.status = 401 →
      handleError e = [GraphAction.authLogout] ∧
      graphReducer s GraphAction.authLogout = s) ∧
    ((e.status = 404 ∨ e.status = 500) →
      handleError e = [GraphAction.setGraph none]) ∧
    (e.status ≠ 401 → e.status ≠ 404 → e.status ≠ 500 →
      handleError e = [GraphAction.getFailed e.msg] ∧
      (graphReducer s (GraphAction.getFailed e.msg)).isLoading = false ∧
      (graphReducer s (GraphAction.getFailed e.msg)).error = e.msg) := by
  refine ⟨?_, ?_, ?_⟩
  · intro h
    exact ⟨by simp [handleError, h], rfl⟩
  · rintro (h | h) <;> simp [handleError, h]
  · intro h1 h2 h3
    exact ⟨by simp [handleError, h1, h2, h3], rfl, rfl⟩

/-- Witness for claim C5 at statuses 401, 404 and 418. -/
theorem handle_error_taxonomy_witness :
    (handleError ⟨401, "m"⟩ = [GraphAction.authLogout] ∧
     graphReducer initialState GraphAction.authLogout = initialState) ∧
    handleError ⟨404, "m"⟩ = [GraphAction.setGraph none] ∧
    (handleError ⟨418, "teapot"⟩ = [GraphAction.getFailed "teapot"] ∧
     (graphReducer initialState (GraphAction.getFailed "teapot")).isLoading = false ∧
     (graphReducer initialState (GraphAction.getFailed "teapot")).error = "teapot") :=
  ⟨(handle_error_taxonomy ⟨401, "m"⟩ initialState).1 rfl,
   (handle_error_taxonomy ⟨404, "m"⟩ initialState).2.1 (Or.inl rfl),
   (handle_error_taxonomy ⟨418, "teapot"⟩ initialState).2.2
     (by decide) (by decide) (by decide)⟩

/-- Claim C3 (code bug): with an empty user-parameter list, `saveDraftEpic`
issues zero parameter-update calls, but its `forkJoin` has zero sources
and therefore completes WITHOUT emitting — no `saveDraftComplete` is ever
produced, contradicting the claim that exactly one is emitted. -/
theorem save_zero_params_emits_nothing :
    saveDraftFire initialState (fun _ => Except.ok ()) = EpicOut.events [] ∧
    saveDraftFire initialState (fun _ => Except.ok ()) ≠
      EpicOut.events [GraphAction.saveDraftComplete] :=
  ⟨rfl, by decide⟩

/-- Claim C4 (code bug): when a per-parameter update call fails or times
out, `saveDraftEpic` — which has no `catchError` — lets the error escape
the workflow boundary: the epic's output stream errors (terminating the
pipeline) instead of translating the failure into a defined outcome. -/
theorem save_failure_escapes_epic :
    saveDraftFire oneParamState (fun _ => Except.error timeoutErr) =
      EpicOut.failed timeoutErr :=
  by decide

/-- Claim C6 (code bug): `saveDraftComplete` sets the loading flag true,
but the save-completion workflow's success follow-up is `resetDraft`,
whose transition does not clear it; likewise the unauthorized failure
path emits only `authLogout`, which leaves the slice state (and hence a
loading flag set by `getGraph`) untouched. -/
theorem loading_stuck_after_save_complete :
    (graphReducer initialState GraphAction.saveDraftComplete).isLoading = true ∧
    saveDraftCompleteFire (Except.ok ()) = [GraphAction.resetDraft] ∧
    (graphReducer (graphReducer initialState GraphAction.saveDraftComplete)
      GraphAction.resetDraft).isLoading = true ∧
    handleError ⟨401, "unauthorized"⟩ = [GraphAction.authLogout] ∧
    (graphReducer (graphReducer initialState GraphAction.getGraph)
      GraphAction.authLogout).isLoading = true :=
  ⟨rfl, rfl, rfl, rfl, rfl⟩

/-- Claim C7: with the fuzzy selector active, `graphEpic` calls the fuzzy
compute operation on the current draft id and fuzzy filter set and never
the DFG operation (and symmetrically for the DFG selector); on success it
emits exactly `setGraph` with the returned payload and `setGraphMetrics`
with the metrics sub-object extracted from it. -/
theorem graph_dispatch_by_algorithm (s : GraphState) (g : Graph) :
    (s.algorithmType = AlgorithmTypes.Fuzzy →
      graphCall s = RemoteCall.fuzzy s.draft.id s.fuzzyFilters ∧
      ∀ d f, graphCall s ≠ RemoteCall.dfg d f) ∧
    (s.algorithmType = AlgorithmTypes.Dfg →
      graphCall s = RemoteCall.dfg s.draft.id s.dfgFilters ∧
      ∀ d f, graphCall s ≠ RemoteCall.fuzzy d f) ∧
    graphFire (Except.ok g) =
      [GraphAction.setGraph (some g), GraphAction.setGraphMetrics g.metrics] := by
  refine ⟨?_, ?_, rfl⟩
  · intro h
    refine ⟨by simp [graphCall, h], ?_⟩
    intro d f
    simp [graphCall, h]
  · intro h
    refine ⟨by simp [graphCall, h], ?_⟩
    intro d f
    simp [graphCall, h]

/-- Witness for claim C7 on concrete fuzzy and DFG states. -/
theorem graph_dispatch_by_algorithm_witness :
    graphCall fuzzyStateExample =
      RemoteCall.fuzzy "d1" fuzzyStateExample.fuzzyFilters ∧
    graphCall dfgStateExample =
      RemoteCall.dfg "d2" dfgStateExample.dfgFilters :=
  ⟨((graph_dispatch_by_algorithm fuzzyStateExample graphExample).1 rfl).1,
   ((graph_dispatch_by_algorithm dfgStateExample graphExample).2.1 rfl).1⟩

/-- Helper: `countTriggers` is additive over concatenation. -/
theorem countTriggers_append (l1 l2 : List DraftEv) :
    countTriggers (l1 ++ l2) = countTriggers l1 + countTriggers l2 := by
  simp [countTriggers, List.countP_append]

/-- Helper: running the draft machine issues one request number per
trigger, so `nextReq` advances by the number of triggers processed. -/
theorem runDraftFrom_nextReq (evs : List DraftEv) :
    ∀ m : DraftMach, (runDraftFrom m evs).nextReq = m.nextReq + countTriggers evs := by
  induction evs with
  | nil => intro m; simp [runDraftFrom, countTriggers]
  | cons e t ih =>
    intro m
    cases e with
    | trigger v =>
      have h := ih ⟨m.nextReq + 1, some m.nextReq⟩
      simp only [runDraftFrom, List.foldl_cons, draftStep] at h ⊢
      rw [h]
      simp [countTriggers, List.countP_cons]
      omega
    | response r out =>
      by_cases hc : m.active = some r
      · have h := ih ⟨m.nextReq, none⟩
        simp only [runDraftFrom, List.foldl_cons, draftStep, hc, if_pos] at h ⊢
        rw [h]
        simp [countTriggers, List.countP_cons]
      · have h := ih m
        simp only [runDraftFrom, List.foldl_cons, draftStep] at h ⊢
        rw [if_neg hc, h]
        simp [countTriggers, List.countP_cons]

/-- Helper: the subscribed inner request, when there is one, is always the
most recently issued request (`switchMap` keeps only the latest). -/
theorem runDraftFrom_active_latest (evs : List DraftEv) :
    ∀ m : DraftMach, (∀ a, m.active = some a → a + 1 = m.nextReq) →
      ∀ a, (runDraftFrom m evs).active = some a →
        a + 1 = (runDraftFrom m evs).nextReq := by
  induction evs with
  | nil => intro m hm; simpa [runDraftFrom] using hm
  | cons e t ih =>
    intro m hm
    cases e with
    | trigger v =>
      have h := ih ⟨m.nextReq + 1, some m.nextReq⟩ (by intro a ha; cases ha; rfl)
      simpa only [runDraftFrom, List.foldl_cons, draftStep] using h
    | response r out =>
      by_cases hc : m.active = some r
      · have h := ih ⟨m.nextReq, none⟩ (by intro a ha; cases ha)
        simpa only [runDraftFrom, List.foldl_cons, draftStep, hc, if_pos] using h
      · have h := ih m hm
        simp only [runDraftFrom, List.foldl_cons, draftStep] at h ⊢
        rw [if_neg hc]
        exact h

/-- Claim C1: if a further `createDraft` trigger arrives while a prior
draft-creation call is in flight, the prior call's response — success or
failure, arriving at any later point — is discarded by `switchMap` and
emits no action at all: no `setDraft`, no error event, no state update.
Request numbers `r < countTriggers p` are exactly the requests issued by
triggers within the prefix `p`, i.e. before the later trigger. -/
theorem draft_stale_response_discarded (p : List DraftEv) (v : String)
    (q : List DraftEv) (r : Nat) (out : Except AjaxErr ViewDraft)
    (h : r < countTriggers p) :
    (draftStep (runDraft (p ++ DraftEv.trigger v :: q))
      (DraftEv.response r out)).2 = [] := by
  have hn : (runDraft (p ++ DraftEv.trigger v :: q)).nextReq =
      countTriggers p + (1 + countTriggers q) := by
    have hr := runDraftFrom_nextReq (p ++ DraftEv.trigger v :: q) ⟨0, none⟩
    have hc : countTriggers (p ++ DraftEv.trigger v :: q) =
        countTriggers p + (1 + countTriggers q) := by
      rw [countTriggers_append]
      simp [countTriggers, List.countP_cons]
      omega
    simpa [runDraft, hc] using hr
  have hinv := runDraftFrom_active_latest (p ++ DraftEv.trigger v :: q)
    ⟨0, none⟩ (by intro a ha; cases ha)
  have hne : (runDraft (p ++ DraftEv.trigger v :: q)).active ≠ some r := by
    intro hac
    have h2 := hinv r hac
    have hn2 : (runDraftFrom (⟨0, none⟩ : DraftMach)
        (p ++ DraftEv.trigger v :: q)).nextReq =
        countTriggers p + (1 + countTriggers q) := hn
    rw [hn2] at h2
    omega
  simp [draftStep, hne]

/-- Witness for claim C1: two triggers, then the first trigger's response
arrives; nothing is emitted. -/
theorem draft_stale_response_discarded_witness :
    (draftStep (runDraft [DraftEv.trigger "a", DraftEv.trigger "b"])
      (DraftEv.response 0 (Except.ok ⟨"d1"⟩))).2 = [] :=
  draft_stale_response_discarded [DraftEv.trigger "a"] "b" [] 0
    (Except.ok ⟨"d1"⟩) (by decide)

/-- Helper: looking up a key under an entry with a different key skips
that entry. -/
theorem objGet_cons_ne (e : String × FilterValue) (f : Filters) (k : String)
    (h : e.1 ≠ k) : objGet (e :: f) k = objGet f k := by
  simp only [objGet, List.filter_cons]
  rw [if_neg (by simpa using h)]

/-- Helper: projecting a parameter list whose keys all differ from `k`
yields no entry for `k`. -/
theorem filter_project_eq_nil (t : List GraphParameters) (k : String)
    (hk : k ∉ t.map GraphParameters.key) :
    (projectParams t).filter (fun e => e.1 == k) = [] := by
  induction t with
  | nil => rfl
  | cons r t' ih =>
    have hr : r.key ≠ k := by
      intro hkk
      exact hk (by simp [hkk])
    have ht' : k ∉ t'.map GraphParameters.key := by
      intro hmem
      exact hk (by simp [hmem])
    simp only [projectParams, List.map_cons, List.filter_cons]
    rw [if_neg (by simpa using hr)]
    exact ih ht'

/-- Helper: under pairwise-distinct keys, the projected mapping of
`graphParametersEpic` gives back each parameter's own value at its key. -/
theorem objGet_project_of_nodup (ps : List GraphParameters)
    (hnd : (ps.map GraphParameters.key).Nodup) :
    ∀ p ∈ ps, objGet (projectParams ps) p.key = p.value := by
  induction ps with
  | nil => intro p hp; cases hp
  | cons q t ih =>
    have hq : q.key ∉ t.map GraphParameters.key := by
      have := (List.pairwise_cons.mp hnd).1
      intro hmem
      rcases List.mem_map.mp hmem with ⟨p', hp', hk⟩
      exact this _ (List.mem_map_of_mem GraphParameters.key hp') hk.symm
    have hnd' : (t.map GraphParameters.key).Nodup :=
      (List.pairwise_cons.mp hnd).2
    intro p hp
    rcases List.mem_cons.mp hp with hp | hp
    · subst hp
      have hfil := filter_project_eq_nil t p.key hq
      simp only [projectParams, List.map_cons, objGet, List.filter_cons]
      rw [show ((t.map fun p => (p.key, p.value)).filter
          (fun e => e.1 == p.key)) = [] from hfil]
      simp
    · have hkne : q.key ≠ p.key := by
        intro he
        exact hq (he ▸ List.mem_map_of_mem GraphParameters.key hp)
      calc objGet (projectParams (q :: t)) p.key
          = objGet (projectParams t) p.key := by
            simpa only [projectParams, List.map_cons] using
              objGet_cons_ne (q.key, q.value) (projectParams t) p.key hkne
        _ = p.value := ih hnd' p hp

/-- Helper: mapping a function that fixes every member is the identity. -/
theorem map_self_of_mem {α : Type} (l : List α) (f : α → α)
    (h : ∀ a ∈ l, f a = a) : l.map f = l := by
  induction l with
  | nil => rfl
  | cons a t ih =>
    simp only [List.map_cons]
    rw [h a (List.mem_cons_self a t), ih (fun b hb => h b (List.mem_cons_of_mem a hb))]

/-- Claim C9 (counterexample): two parameters of different owning
algorithms sharing a key — `Object.fromEntries` keeps the last entry, so
the round trip rewrites the first parameter's value to the second's. -/
theorem roundtrip_duplicate_key_counterexample :
    (roundTrip c9Params).map GraphParameters.value =
      [FilterValue.num 2, FilterValue.num 2] ∧
    c9Params.map GraphParameters.value =
      [FilterValue.num 1, FilterValue.num 2] ∧
    roundTrip c9Params ≠ c9Params := by
  refine ⟨by decide, by decide, by decide⟩

/-- Claim C9 (amended): for every user-parameter list whose keys are
pairwise distinct, projecting it into the filter mappings as
`graphParametersEpic` does and merging those mappings back into the list
by key as `saveDraftEpic` does preserves every parameter (in particular
its value), whichever algorithm owns it. -/
theorem roundtrip_preserves_of_nodup_keys (ps : List GraphParameters)
    (hnd : (ps.map GraphParameters.key).Nodup) :
    roundTrip ps = ps := by
  have hv := objGet_project_of_nodup ps hnd
  unfold roundTrip newUserParams
  apply map_self_of_mem
  intro p hp
  have hval := hv p hp
  cases hb : p.method == "fuzzy" <;> simp [hb, hval]

/-- Witness for the amended claim C9 on a two-parameter list with
distinct keys. -/
theorem roundtrip_preserves_witness :
    (c9WitnessParams.map GraphParameters.key).Nodup ∧
    roundTrip c9WitnessParams = c9WitnessParams :=
  ⟨by decide, roundtrip_preserves_of_nodup_keys c9WitnessParams (by decide)⟩

/-- Helper: the debounce firing condition, as a proposition — the trigger
at `t` is delivered iff no trigger arrives strictly within `(t, t+1000)`. -/
theorem noLater_iff (l : List Nat) (t : Nat) :
    noLater l t = true ↔ ∀ u ∈ l, t < u → ¬u < t + 1000 := by
  unfold noLater
  rw [List.all_eq_true]
  constructor
  · intro h u hu h1 h2
    have hb := h u hu
    simp only [Bool.not_eq_true', Bool.and_eq_false_iff,
      decide_eq_false_iff_not] at hb
    rcases hb with hb | hb
    · exact hb h1
    · exact hb h2
  · intro h u hu
    simp only [Bool.not_eq_true', Bool.and_eq_false_iff,
      decide_eq_false_iff_not]
    by_cases h1 : t < u
    · exact Or.inr (h u hu h1)
    · exact Or.inl h1

/-- Helper: in a strictly increasing burst whose consecutive triggers are
less than 1000ms apart, the debounce condition singles out exactly the
last trigger. -/
theorem noLater_mem_iff_getLast (l : List Nat)
    (hs : l.Pairwise (· < ·))
    (hc : List.Chain' (fun a b => b < a + 1000) l) :
    ∀ t ∈ l, (noLater l t = true ↔ l.getLast? = some t) := by
  induction l with
  | nil => intro t ht; cases ht
  | cons x tl ih =>
    intro t ht
    cases tl with
    | nil =>
      rcases List.mem_singleton.mp ht with rfl
      constructor
      · intro _; rfl
      · intro _
        rw [noLater_iff]
        intro u hu h1 h2
        rcases List.mem_singleton.mp hu with rfl
        omega
    | cons y tl2 =>
      have hxy : x < y := (List.pairwise_cons.mp hs).1 y (by simp)
      have hyx : y < x + 1000 := (List.chain'_cons.mp hc).1
      have hs' : (y :: tl2).Pairwise (· < ·) := (List.pairwise_cons.mp hs).2
      have hc' : List.Chain' (fun a b => b < a + 1000) (y :: tl2) :=
        (List.chain'_cons.mp hc).2
      have hlast : (x :: y :: tl2).getLast? = (y :: tl2).getLast? :=
        List.getLast?_cons_cons
      rcases List.mem_cons.mp ht with rfl | ht'
      · constructor
        · intro hn
          exfalso
          rw [noLater_iff] at hn
          exact hn y (by simp) hxy hyx
        · intro hl
          exfalso
          rw [hlast, List.getLast?_eq_getLast (y :: tl2) (by simp)] at hl
          have hx : (y :: tl2).getLast (by simp) = t := Option.some.inj hl
          have hlt : t < (y :: tl2).getLast (by simp) :=
            (List.pairwise_cons.mp hs).1 _ (List.getLast_mem _)
          omega
      · have hxt : x < t := (List.pairwise_cons.mp hs).1 t ht'
        have hiff := ih hs' hc' t ht'
        have heq : (noLater (x :: y :: tl2) t = true) ↔
            (noLater (y :: tl2) t = true) := by
          rw [noLater_iff, noLater_iff]
          constructor
          · intro h u hu
            exact h u (List.mem_cons_of_mem x hu)
          · intro h u hu
            rcases List.mem_cons.mp hu with rfl | hu'
            · intro hcontra
              omega
            · exact h u hu'
        rw [heq, hiff, hlast]

/-- Helper: filtering a strictly increasing list for its last element
keeps exactly one entry. -/
theorem filterMap_eq_getLast_singleton {α : Type} (f : Nat → α) :
    ∀ (l : List Nat), l.Pairwise (· < ·) → ∀ (hne : l ≠ []),
      l.filterMap (fun t => if l.getLast? = some t then some (f t) else none) =
        [f (l.getLast hne)] := by
  intro l
  induction l with
  | nil => intro _ hne; cases hne rfl
  | cons x tl ih =>
    intro hs hne
    cases tl with
    | nil => simp
    | cons y tl2 =>
      have hs' : (y :: tl2).Pairwise (· < ·) := (List.pairwise_cons.mp hs).2
      have hxl : x < (y :: tl2).getLast (by simp) :=
        (List.pairwise_cons.mp hs).1 _ (List.getLast_mem _)
      have hlast2 : (x :: y :: tl2).getLast? = (y :: tl2).getLast? :=
        List.getLast?_cons_cons
      rw [List.filterMap_cons]
      have hcond : ¬((x :: y :: tl2).getLast? = some x) := by
        rw [hlast2, List.getLast?_eq_getLast (y :: tl2) (by simp)]
        intro hcontra
        have hx : (y :: tl2).getLast (by simp) = x := Option.some.inj hcontra
        omega
      rw [if_neg hcond, hlast2]
      rw [show (x :: y :: tl2).getLast hne = (y :: tl2).getLast (by simp) from
        List.getLast_cons (by simp)]
      exact ih hs' (by simp)

/-- Helper: on a strictly increasing single burst, the debounced
filterMap keeps exactly the last trigger's image. -/
theorem filterMap_noLater {α : Type} (f : Nat → α) (l : List Nat)
    (hs : l.Pairwise (· < ·))
    (hc : List.Chain' (fun a b => b < a + 1000) l)
    (hne : l ≠ []) :
    l.filterMap (fun t => if noLater l t then some (f t) else none) =
      [f (l.getLast hne)] := by
  have hchar := noLater_mem_iff_getLast l hs hc
  have hcong : l.filterMap (fun t => if noLater l t then some (f t) else none) =
      l.filterMap (fun t => if l.getLast? = some t then some (f t) else none) := by
    apply List.filterMap_congr
    intro t ht
    by_cases h : noLater l t
    · rw [if_pos h, if_pos ((hchar t ht).mp h)]
    · rw [if_neg h, if_neg (fun hl => h ((hchar t ht).mpr hl))]
  rw [hcong]
  exact filterMap_eq_getLast_singleton f l hs hne

/-- Claim C2 (counterexample): a burst of two `getGraph` triggers 400ms
apart followed by a `setDfgFilters` dispatch 500ms after the last trigger.
Exactly one compute call is issued, but because `withLatestFrom(state$)`
samples the store at the debounced delivery (1400ms), the call uses the
changed filter set, not the filter set current at the last trigger
(400ms), where the defaults were still in force. -/
theorem graph_debounce_counterexample :
    debouncedCalls c2Trace = [RemoteCall.dfg "" dfgFiltersChanged] ∧
    (stateAt c2Trace 400).dfgFilters = dfgFilterDefaults ∧
    dfgFiltersChanged ≠ dfgFilterDefaults := by
  refine ⟨by decide, by decide, by decide⟩

/-- Claim C2 (amended): for every timed trace whose dispatch times are
strictly increasing and whose `getGraph` triggers form one burst
(consecutive triggers less than 1000ms apart), exactly one remote
graph-compute call is issued, and it uses the algorithm selector and
filter set of the state sampled when the debounced trigger is delivered,
1000ms after the last trigger of the burst. -/
theorem graph_debounce_last_call (tr : ActionTrace)
    (hsort : (tr.map Prod.fst).Pairwise (· < ·))
    (hburst : List.Chain' (fun a b => b < a + 1000) (triggerTimes tr))
    (hne : triggerTimes tr ≠ []) :
    debouncedCalls tr =
      [graphCall (stateAt tr ((triggerTimes tr).getLast hne + 1000))] := by
  have hsub : List.Sublist (triggerTimes tr) (tr.map Prod.fst) := by
    unfold triggerTimes
    exact List.Sublist.map Prod.fst (List.filter_sublist tr)
  have hsort2 : (triggerTimes tr).Pairwise (· < ·) :=
    List.Pairwise.sublist hsub hsort
  unfold debouncedCalls
  exact filterMap_noLater (fun t => graphCall (stateAt tr (t + 1000)))
    (triggerTimes tr) hsort2 hburst hne

/-- Witness for the amended claim C2 on a two-trigger burst. -/
theorem graph_debounce_last_call_witness :
    debouncedCalls c2WitnessTrace =
      [graphCall (stateAt c2WitnessTrace 1400)] :=
  graph_debounce_last_call c2WitnessTrace (by decide)
    (by
      rw [show triggerTimes c2WitnessTrace = [0, 400] from rfl]
      exact List.chain'_cons.mpr ⟨by omega, List.chain'_singleton 400⟩)
    (by
      rw [show triggerTimes c2WitnessTrace = [0, 400] from rfl]
      simp)
